import Mathlib

/-!
# Fruit Counter — verification of the request processing and analytics pipeline

Shallow embedding of the core of the repository (`app/db.py`, `app/model.py`,
`app/main.py`): the request store and its aggregate queries, the detection
adapter's normalization of raw detections into class counts, and the pipeline
orchestrator's validation / staging / persistence sequence.

Modelling conventions:
* The SQLite table `requests` is a `Store`: a list of rows kept in the order
  `SELECT * ... ORDER BY id DESC` returns them (most recent first), plus the
  next AUTOINCREMENT id.  The representation invariant `Store.WF` (ids strictly
  descending along `rows`, all below `nextId`) holds for every store reachable
  by `insert_request` from the empty table.
* `counts_json` holds the result of `json.loads` on the stored text, as the
  inductive `StoredJson`: `malformed` when `json.loads` raises
  `JSONDecodeError`, `nonObject` when it yields a value without `.items()`
  (a list, string, number ...), and `obj entries` for a JSON object, each value
  tagged by whether Python's `int(value)` succeeds (`JVal.okInt n`) or raises
  (`JVal.bad`).  `json.dumps` of a `str -> int` dict followed by `json.loads`
  is the identity, embedded as `encodeCounts`.
* SQL aggregates `COUNT` / `SUM` / `AVG` with `COALESCE` are embedded directly;
  SQLite REAL arithmetic in `AVG` is idealized as `ℚ`.
* Python dict update `d[k] = d.get(k, 0) + v` (update first occurrence in
  insertion order, else append) is `updTotals`.
-/

/-! ## Constants (`app/model.py`, `app/main.py`) -/

/-- `FRUIT_CLASSES = {"apple", "banana", "orange"}` (a set: only membership is used). -/
def FRUIT_CLASSES : List String := ["apple", "banana", "orange"]

/-- `MODEL_NAME = "yolov8n.pt"`. -/
def MODEL_NAME : String := "yolov8n.pt"

/-- `MAX_FILE_MB = 20`. -/
def MAX_FILE_MB : Nat := 20

/-- `ALLOWED_EXTENSIONS = {".jpg", ".jpeg", ".png"}`. -/
def ALLOWED_EXTENSIONS : List String := [".jpg", ".jpeg", ".png"]

/-! ## Stored JSON values (`counts_json` column) -/

/-- A value of a decoded JSON object, tagged by whether `int(value)` succeeds. -/
inductive JVal where
  | okInt (n : Int)
  | bad
deriving DecidableEq, Repr

/-- Result of `json.loads` on a stored `counts_json` text. -/
inductive StoredJson where
  | malformed
  | nonObject
  | obj (entries : List (String × JVal))
deriving DecidableEq, Repr

/-- `json.dumps` of a `str -> int` dict, as seen back through `json.loads`:
the same entries in the same order, every value an int. -/
def encodeCounts (m : List (String × Int)) : StoredJson :=
  .obj (m.map (fun p => (p.1, JVal.okInt p.2)))

/-- Decode the entries of a JSON object back into a `str -> int` mapping;
`none` as soon as a value is not an int. -/
def decodeEntries : List (String × JVal) → Option (List (String × Int))
  | [] => some []
  | (k, .okInt n) :: rest => (decodeEntries rest).map (fun m => (k, n) :: m)
  | (_, .bad) :: _ => none

/-- Decode a stored value back into a `str -> int` mapping; `none` when the
stored value is not a JSON object of ints. -/
def decodeCounts : StoredJson → Option (List (String × Int))
  | .malformed => none
  | .nonObject => none
  | .obj entries => decodeEntries entries

/-! ## Request records and the store (`app/db.py`) -/

/-- One row of the `requests` table. -/
structure Rec where
  id : Nat
  filename : String
  output_path : String
  counts_json : StoredJson
  total_count : Int
  model_name : String
  created_at : String
  processing_ms : Int
deriving DecidableEq, Repr

/-- The `requests` table: rows in `ORDER BY id DESC` order, plus the next
AUTOINCREMENT id. -/
structure Store where
  nextId : Nat
  rows : List Rec
deriving DecidableEq, Repr

/-- The freshly initialized table (`init_db` on a new database). -/
def Store.empty : Store := ⟨1, []⟩

/-- Representation invariant: `rows` strictly descending by id (the
`ORDER BY id DESC` order) and every id below the AUTOINCREMENT counter. -/
def Store.WF (s : Store) : Prop :=
  s.rows.Pairwise (fun a b => b.id < a.id) ∧ ∀ r ∈ s.rows, r.id < s.nextId

instance (s : Store) : Decidable s.WF := by
  unfold Store.WF; infer_instance

/-- `insert_request`: serialize `counts` with `json.dumps`, insert the row,
return `lastrowid` and the new table state. -/
def insert_request (s : Store) (filename output_path : String)
    (counts : List (String × Int)) (total_count : Int)
    (model_name created_at : String) (processing_ms : Int) : Nat × Store :=
  let r : Rec :=
    { id := s.nextId
      filename := filename
      output_path := output_path
      counts_json := encodeCounts counts
      total_count := total_count
      model_name := model_name
      created_at := created_at
      processing_ms := processing_ms }
  (s.nextId, ⟨s.nextId + 1, r :: s.rows⟩)

/-- `fetch_all`: `SELECT * FROM requests ORDER BY id DESC`. -/
def fetch_all (s : Store) : List Rec := s.rows

/-- `fetch_recent`: `SELECT * FROM requests ORDER BY id DESC LIMIT ?`.
SQLite treats a negative `LIMIT` as no limit. -/
def fetch_recent (limit : Int) (s : Store) : List Rec :=
  if limit < 0 then s.rows else s.rows.take limit.toNat

/-! ### SQL aggregates for `get_summary` -/

/-- SQL `SUM` over a column: `NULL` (here `none`) on an empty set of rows. -/
def sqlSUM (xs : List Int) : Option Int :=
  if xs.isEmpty then none else some xs.sum

/-- SQL `AVG` over a column: `NULL` on an empty set of rows, else the mean
(REAL arithmetic idealized as `ℚ`). -/
def sqlAVG (xs : List Int) : Option ℚ :=
  if xs.isEmpty then none else some ((xs.sum : ℚ) / (xs.length : ℚ))

/-- SQL `COALESCE(x, d)`. -/
def coalesce {α : Type} (x : Option α) (d : α) : α := x.getD d

/-- Result row of `get_summary`, field names as in the SQL aliases. -/
structure Summary where
  total_requests : Nat
  total_fruits : Int
  avg_per_request : ℚ
deriving DecidableEq, Repr

/-- `get_summary`: `SELECT COUNT(*), COALESCE(SUM(total_count), 0),
COALESCE(AVG(total_count), 0) FROM requests`. -/
def get_summary (s : Store) : Summary :=
  let col := s.rows.map (fun r => r.total_count)
  { total_requests := s.rows.length
    total_fruits := coalesce (sqlSUM col) 0
    avg_per_request := coalesce (sqlAVG col) 0 }

/-! ### `get_counts_by_class` -/

/-- Python dict update `totals[key] = totals.get(key, 0) + v`: bump the first
occurrence of the key in insertion order, else append at the end. -/
def updTotals : List (String × Int) → String → Int → List (String × Int)
  | [], k, v => [(k, v)]
  | p :: rest, k, v =>
    if p.1 = k then (p.1, p.2 + v) :: rest else p :: updTotals rest k v

/-- `totals.get(k, 0)`: value at the (first) occurrence of `k`, default `0`. -/
def lookupD : List (String × Int) → String → Int
  | [], _ => 0
  | p :: rest, k => if p.1 = k then p.2 else lookupD rest k

/-- Keys of a totals mapping. -/
def keysOf (t : List (String × Int)) : List String := t.map (fun p => p.1)

/-- `sum(counts.values())`. -/
def sumVals : List (String × Int) → Int
  | [] => 0
  | p :: rest => p.2 + sumVals rest

/-- The contribution of one decoded object's entries to one class: the sum of
its int values stored under that key. -/
def entrySum : List (String × JVal) → String → Int
  | [], _ => 0
  | (k2, .okInt n) :: rest, k => (if k2 = k then n else 0) + entrySum rest k
  | (_, .bad) :: rest, k => entrySum rest k

/-- The contribution of one stored row's count data to one class: zero for
anything that is not a JSON object. -/
def rowSumAt (j : StoredJson) (k : String) : Int :=
  match j with
  | .obj entries => entrySum entries k
  | _ => 0

/-- The keywise sum of a plain `str -> int` mapping at one key. -/
def mapSumAt : List (String × Int) → String → Int
  | [], _ => 0
  | p :: rest, k => (if p.1 = k then p.2 else 0) + mapSumAt rest k

/-- A row's stored count data is within what `get_counts_by_class` tolerates:
undecodable JSON (caught) or a JSON object whose values all coerce to int. -/
def rowTolerated (r : Rec) : Bool :=
  match r.counts_json with
  | .malformed => true
  | .nonObject => false
  | .obj entries => entries.all (fun p => p.2 != JVal.bad)

/-- The inner loop `for key, value in counts.items(): totals[key] += int(value)`;
`int(value)` raising (uncaught) aborts the whole aggregation. -/
def addRowCounts (acc : List (String × Int)) :
    List (String × JVal) → Except Unit (List (String × Int))
  | [] => .ok acc
  | (k, .okInt n) :: rest => addRowCounts (updTotals acc k n) rest
  | (_, .bad) :: _ => .error ()

/-- The row loop of `get_counts_by_class`: `json.JSONDecodeError` is caught
(`counts = {}`); a decoded non-object raises `AttributeError` at `.items()`,
uncaught. -/
def aggRows : List Rec → List (String × Int) → Except Unit (List (String × Int))
  | [], acc => .ok acc
  | r :: rest, acc =>
    match r.counts_json with
    | .malformed => aggRows rest acc
    | .nonObject => .error ()
    | .obj entries =>
      match addRowCounts acc entries with
      | .ok acc2 => aggRows rest acc2
      | .error e => .error e

/-- `get_counts_by_class`: fold the decoded counts of every row of
`fetch_all` into one totals mapping. -/
def get_counts_by_class (s : Store) : Except Unit (List (String × Int)) :=
  aggRows (fetch_all s) []

/-- A read query as a state transition: `get_summary` opens a connection,
reads, and leaves the table unchanged. -/
def summaryOp (s : Store) : Summary × Store := (get_summary s, s)

/-- A read query as a state transition: `get_counts_by_class` reads and
leaves the table unchanged. -/
def totalsOp (s : Store) : Except Unit (List (String × Int)) × Store :=
  (get_counts_by_class s, s)

/-! ## Detection adapter (`app/model.py`) -/

/-- `model.names` / `result.names`: the detector's class-id → class-name
mapping (a dict, so keys are unique; looked up by first match). -/
def namesGet (names : List (Nat × String)) (cid : Nat) : Option String :=
  (names.find? (fun p => p.1 = cid)).map (fun p => p.2)

/-- Python `str.lower()` on one character (ASCII; every string this system
lower-cases and compares is ASCII). -/
def asciiLowerChar (c : Char) : Char :=
  if 'A' ≤ c ∧ c ≤ 'Z' then Char.ofNat (c.toNat + 32) else c

/-- Python `str.lower()` (ASCII). -/
def asciiLower (s : String) : String := ⟨s.data.map asciiLowerChar⟩

/-- `_get_fruit_class_ids`: ids whose lower-cased name is in `FRUIT_CLASSES`,
in dict iteration order. -/
def _get_fruit_class_ids (names : List (Nat × String)) : List Nat :=
  (names.filter (fun p => asciiLower p.2 ∈ FRUIT_CLASSES)).map (fun p => p.1)

/-- How the detector is invoked: with `classes=fruit_ids` or unrestricted. -/
inductive DetectorCall where
  | restricted (ids : List Nat)
  | unrestricted
deriving DecidableEq, Repr

/-- The branch of `run_detection`: `if fruit_ids: model(..., classes=fruit_ids)
else: model(...)`. -/
def detectorCallOf (names : List (Nat × String)) : DetectorCall :=
  let fruit_ids := _get_fruit_class_ids names
  if fruit_ids.isEmpty then .unrestricted else .restricted fruit_ids

/-- `str(names.get(int(cls_id), "unknown")).lower()`. -/
def keyOf (names : List (Nat × String)) (cid : Nat) : String :=
  asciiLower ((namesGet names cid).getD "unknown")

/-- The counting loop of `run_detection`: keep a raw detection only when its
lower-cased class name is in `FRUIT_CLASSES`, accumulating per-class counts. -/
def countDetections (names : List (Nat × String)) :
    List Nat → List (String × Int) → List (String × Int)
  | [], counts => counts
  | cid :: rest, counts =>
    if keyOf names cid ∈ FRUIT_CLASSES then
      countDetections names rest (updTotals counts (keyOf names cid) 1)
    else
      countDetections names rest counts

/-- What the detector run returned for one image: `result.names` and the
class ids of `result.boxes.cls` (empty when `boxes`/`cls` is `None`), plus
the measured elapsed time. -/
structure RawDetection where
  names : List (Nat × String)
  clsIds : List Nat
  processing_ms : Int
deriving DecidableEq, Repr

/-- `run_detection` after the detector call: normalize raw detections into
`(counts, total, processing_ms)` (the annotated image artifact is opaque and
not modelled). -/
def run_detection (r : RawDetection) : List (String × Int) × Int × Int :=
  let counts := countDetections r.names r.clsIds []
  (counts, sumVals counts, r.processing_ms)

/-! ## Pipeline orchestrator (`app/main.py`) -/

/-- `PurePath.name` of a POSIX path string: the characters after the last
path separator, trailing separators dropped (as `pathlib` drops them). -/
def pathNameChars (cs : List Char) : List Char :=
  ((cs.reverse.dropWhile (fun c => c = '/')).reverse).foldl
    (fun acc c => if c = '/' then [] else acc ++ [c]) []

/-- Index of the last `.` in a character list (`str.rfind`). -/
def lastDotIdx (cs : List Char) : Option Nat :=
  (List.range cs.length).foldl
    (fun acc i => if cs[i]? = some '.' then some i else acc) none

/-- `PurePath.suffix`: `name[i:]` for the last dot at `0 < i < len(name) - 1`,
else the empty string. -/
def pySuffix (s : String) : String :=
  let cs := pathNameChars s.data
  match lastDotIdx cs with
  | none => ""
  | some i =>
    if 0 < i ∧ i < cs.length - 1 then String.mk (cs.drop i) else ""

/-- One inbound request to `process_image`: the declared filename (`none`
models a missing filename), the upload's byte length, whether
`Image.open(...).verify()` succeeds on the staged bytes, and what the
detector does when reached (`none`: `run_detection` raises). -/
structure Upload where
  filename : Option String
  size : Nat
  decodes : Bool
  det : Option RawDetection
  created_at : String
  file_id : String
deriving DecidableEq, Repr

/-- How a `process_image` request exits. -/
inductive Outcome where
  | noFileSelected
  | badExtension
  | tooLarge
  | notAnImage
  | detectionRaised
  | completed (requestId : Nat)
deriving DecidableEq, Repr

/-- Result of one `process_image` run: the exit taken, the table afterwards,
and whether the staged upload file `UPLOAD_DIR/{file_id}{ext}` is still on
disk when the request exits. -/
structure PipeOut where
  outcome : Outcome
  store : Store
  stagedRemains : Bool
deriving DecidableEq, Repr

/-- `process_image`: validate extension and size, stage the upload to disk,
verify it is an image (unlinking the staged file on failure), run detection
(an exception there propagates with no cleanup), persist the record. -/
def process_image (u : Upload) (s : Store) : PipeOut :=
  match u.filename with
  | none => ⟨.noFileSelected, s, false⟩
  | some fn =>
    let ext := asciiLower (pySuffix fn)
    if ext ∉ ALLOWED_EXTENSIONS then
      ⟨.badExtension, s, false⟩
    else if u.size > MAX_FILE_MB * 1024 * 1024 then
      ⟨.tooLarge, s, false⟩
    else
      -- upload_path.write_bytes(contents): the staged file now exists
      if ¬ u.decodes then
        -- except: upload_path.unlink(missing_ok=True)
        ⟨.notAnImage, s, false⟩
      else
        match u.det with
        | none =>
          -- run_detection raises: no handler, the staged file is not removed
          ⟨.detectionRaised, s, true⟩
        | some raw =>
          let out := run_detection raw
          let ins := insert_request s fn (u.file_id ++ "_result.jpg")
            out.1 out.2.1 MODEL_NAME u.created_at out.2.2
          -- success: the staged upload file is never deleted either
          ⟨.completed ins.1, ins.2, true⟩

/-! ## Helper lemmas -/

theorem lookupD_updTotals (t : List (String × Int)) (k : String) (v : Int)
    (k2 : String) :
    lookupD (updTotals t k v) k2 = lookupD t k2 + if k2 = k then v else 0 := by
  induction t with
  | nil =>
    by_cases h : k = k2
    · subst h; simp [updTotals, lookupD]
    · have h2 : ¬ k2 = k := fun hh => h hh.symm
      simp [updTotals, lookupD, h, h2]
  | cons p rest ih =>
    by_cases hpk : p.1 = k
    · by_cases hpk2 : p.1 = k2
      · have h1 : k2 = k := by rw [← hpk2, hpk]
        simp [updTotals, lookupD, hpk, hpk2, h1]
      · have h1 : ¬ k2 = k := fun h => hpk2 (by rw [hpk, h])
        have h3 : ¬ k = k2 := fun h => h1 h.symm
        simp [updTotals, lookupD, hpk, hpk2, h1, h3]
    · by_cases hpk2 : p.1 = k2
      · have h1 : ¬ k2 = k := fun h => hpk (by rw [hpk2, h])
        simp [updTotals, lookupD, hpk, hpk2, h1]
      · simp [updTotals, lookupD, hpk, hpk2, ih]

theorem sumVals_updTotals (t : List (String × Int)) (k : String) (v : Int) :
    sumVals (updTotals t k v) = sumVals t + v := by
  induction t with
  | nil => simp [updTotals, sumVals]
  | cons p rest ih =>
    by_cases hpk : p.1 = k
    · simp only [updTotals, if_pos hpk, sumVals]; ring
    · simp only [updTotals, if_neg hpk, sumVals, ih]; ring

theorem keysOf_updTotals (t : List (String × Int)) (k : String) (v : Int) :
    keysOf (updTotals t k v) ⊆ keysOf t ++ [k] := by
  induction t with
  | nil => simp [updTotals, keysOf]
  | cons p rest ih =>
    by_cases hpk : p.1 = k
    · simp only [updTotals, if_pos hpk, keysOf, List.map_cons]
      intro x hx
      simp only [List.cons_append, List.mem_cons]
      simpa [keysOf] using (List.mem_cons.mp hx).imp id (fun h => Or.inl h)
    · simp only [updTotals, if_neg hpk, keysOf, List.map_cons, List.cons_append]
      exact List.cons_subset_cons p.1 ih

theorem keysOf_countDetections (names : List (Nat × String)) (ids : List Nat) :
    ∀ acc, ∀ x ∈ keysOf (countDetections names ids acc),
      x ∈ keysOf acc ∨ x ∈ FRUIT_CLASSES := by
  induction ids with
  | nil => intro acc x hx; exact Or.inl hx
  | cons cid rest ih =>
    intro acc x hx
    by_cases hk : keyOf names cid ∈ FRUIT_CLASSES
    · simp only [countDetections, if_pos hk] at hx
      rcases ih (updTotals acc (keyOf names cid) 1) x hx with h | h
      · rcases List.mem_append.mp (keysOf_updTotals acc (keyOf names cid) 1 h) with
          h2 | h2
        · exact Or.inl h2
        · right
          have : x = keyOf names cid := by simpa using h2
          rw [this]; exact hk
      · exact Or.inr h
    · simp only [countDetections, if_neg hk] at hx
      exact ih acc x hx

theorem lookupD_countDetections (names : List (Nat × String)) (ids : List Nat)
    (k : String) :
    ∀ acc, lookupD (countDetections names ids acc) k =
      lookupD acc k +
        if k ∈ FRUIT_CLASSES then
          ((ids.filter (fun cid => keyOf names cid = k)).length : Int)
        else 0 := by
  induction ids with
  | nil => intro acc; simp [countDetections]
  | cons cid rest ih =>
    intro acc
    by_cases hk : keyOf names cid ∈ FRUIT_CLASSES
    · simp only [countDetections, if_pos hk]
      rw [ih (updTotals acc (keyOf names cid) 1),
        lookupD_updTotals acc (keyOf names cid) 1 k]
      by_cases hkk : keyOf names cid = k
      · have hkF : k ∈ FRUIT_CLASSES := hkk ▸ hk
        simp [List.filter_cons, hkk, hkF]
        ring
      · have hkk2 : ¬ k = keyOf names cid := fun h => hkk h.symm
        simp [List.filter_cons, hkk, hkk2]
    · simp only [countDetections, if_neg hk]
      rw [ih acc]
      by_cases hkk : keyOf names cid = k
      · have : k ∉ FRUIT_CLASSES := fun h => hk (hkk ▸ h)
        simp [List.filter_cons, hkk, this]
      · simp [List.filter_cons, hkk]

theorem sumVals_countDetections (names : List (Nat × String)) (ids : List Nat) :
    ∀ acc, sumVals (countDetections names ids acc) =
      sumVals acc +
        ((ids.filter (fun cid => keyOf names cid ∈ FRUIT_CLASSES)).length : Int) := by
  induction ids with
  | nil => intro acc; simp [countDetections]
  | cons cid rest ih =>
    intro acc
    by_cases hk : keyOf names cid ∈ FRUIT_CLASSES
    · simp only [countDetections, if_pos hk]
      rw [ih (updTotals acc (keyOf names cid) 1),
        sumVals_updTotals acc (keyOf names cid) 1]
      simp [List.filter_cons, hk]
      ring
    · simp only [countDetections, if_neg hk]
      rw [ih acc]
      simp [List.filter_cons, hk]

theorem addRowCounts_ok (entries : List (String × JVal)) :
    ∀ acc t, addRowCounts acc entries = .ok t →
      ∀ k, lookupD t k = lookupD acc k + entrySum entries k := by
  induction entries with
  | nil =>
    intro acc t h k
    simp only [addRowCounts] at h
    cases h
    simp [entrySum]
  | cons e rest ih =>
    intro acc t h k
    match e with
    | (k2, .okInt n) =>
      simp only [addRowCounts] at h
      rw [ih (updTotals acc k2 n) t h k, lookupD_updTotals acc k2 n k]
      simp only [entrySum]
      by_cases hk : k2 = k
      · simp [hk]; ring
      · have hk2 : ¬ k = k2 := fun h2 => hk h2.symm
        simp [hk, hk2]
    | (k2, .bad) =>
      simp only [addRowCounts] at h
      simp at h

theorem addRowCounts_isOk (entries : List (String × JVal))
    (h : ∀ p ∈ entries, p.2 ≠ JVal.bad) :
    ∀ acc, ∃ t, addRowCounts acc entries = .ok t := by
  induction entries with
  | nil => intro acc; exact ⟨acc, rfl⟩
  | cons e rest ih =>
    intro acc
    match e, h e (by simp) with
    | (k2, .okInt n), _ =>
      exact ih (fun p hp => h p (List.mem_cons_of_mem _ hp)) (updTotals acc k2 n)
    | (k2, .bad), hbad => exact absurd rfl hbad

theorem aggRows_ok (rows : List Rec) :
    ∀ acc t, aggRows rows acc = .ok t →
      ∀ k, lookupD t k =
        lookupD acc k + ((rows.map (fun r => rowSumAt r.counts_json k)).sum) := by
  induction rows with
  | nil =>
    intro acc t h k
    simp only [aggRows] at h
    cases h
    simp
  | cons r rest ih =>
    intro acc t h k
    match hcj : r.counts_json with
    | .malformed =>
      simp only [aggRows, hcj] at h
      rw [ih acc t h k]
      simp [rowSumAt, hcj]
    | .nonObject =>
      simp only [aggRows, hcj] at h
      simp at h
    | .obj entries =>
      simp only [aggRows, hcj] at h
      match hadd : addRowCounts acc entries with
      | .ok acc2 =>
        rw [hadd] at h
        rw [ih acc2 t h k, addRowCounts_ok entries acc acc2 hadd k]
        simp [rowSumAt, hcj]
        ring
      | .error e =>
        rw [hadd] at h
        cases h

theorem aggRows_tolerated (rows : List Rec)
    (h : ∀ r ∈ rows, rowTolerated r = true) :
    ∀ acc, ∃ t, aggRows rows acc = .ok t := by
  induction rows with
  | nil => intro acc; exact ⟨acc, rfl⟩
  | cons r rest ih =>
    intro acc
    have hr := h r (by simp)
    have hrest := fun r2 hr2 => h r2 (List.mem_cons_of_mem _ hr2)
    match hcj : r.counts_json with
    | .malformed =>
      rcases ih hrest acc with ⟨t, ht⟩
      exact ⟨t, by simp only [aggRows, hcj]; exact ht⟩
    | .nonObject =>
      rw [rowTolerated, hcj] at hr
      cases hr
    | .obj entries =>
      rw [rowTolerated, hcj] at hr
      have hall : ∀ p ∈ entries, p.2 ≠ JVal.bad := by
        intro p hp
        have := (List.all_eq_true.mp hr) p hp
        simpa using this
      rcases addRowCounts_isOk entries hall acc with ⟨acc2, hacc2⟩
      rcases ih hrest acc2 with ⟨t, ht⟩
      exact ⟨t, by simp only [aggRows, hcj, hacc2]; exact ht⟩

theorem decodeEntries_encode (m : List (String × Int)) :
    decodeEntries (m.map (fun p => (p.1, JVal.okInt p.2))) = some m := by
  induction m with
  | nil => rfl
  | cons p rest ih => simp [decodeEntries, ih]

theorem decode_encode (m : List (String × Int)) :
    decodeCounts (encodeCounts m) = some m := by
  simp [decodeCounts, encodeCounts, decodeEntries_encode]

theorem decodeEntries_eq_some (entries : List (String × JVal)) :
    ∀ m, decodeEntries entries = some m →
      entries = m.map (fun p => (p.1, JVal.okInt p.2)) := by
  induction entries with
  | nil => intro m h; simp only [decodeEntries] at h; cases h; rfl
  | cons e rest ih =>
    intro m h
    match e with
    | (k, .okInt n) =>
      simp only [decodeEntries, Option.map_eq_some'] at h
      rcases h with ⟨m2, hm2, hm⟩
      rw [← hm]
      simp [ih m2 hm2]
    | (k, .bad) =>
      simp only [decodeEntries] at h
      simp at h

theorem decode_eq_some (j : StoredJson) (m : List (String × Int))
    (h : decodeCounts j = some m) : j = encodeCounts m := by
  match j with
  | .malformed => simp [decodeCounts] at h
  | .nonObject => simp [decodeCounts] at h
  | .obj entries =>
    simp only [decodeCounts] at h
    rw [encodeCounts, decodeEntries_eq_some entries m h]

theorem entrySum_encode (m : List (String × Int)) (k : String) :
    entrySum (m.map (fun p => (p.1, JVal.okInt p.2))) k = mapSumAt m k := by
  induction m with
  | nil => rfl
  | cons p rest ih => simp [entrySum, mapSumAt, ih]

theorem rowTolerated_of_decode (r : Rec) (m : List (String × Int))
    (h : decodeCounts r.counts_json = some m) : rowTolerated r = true := by
  have hj := decode_eq_some r.counts_json m h
  rw [rowTolerated, hj, encodeCounts]
  simp only [List.all_eq_true]
  intro p hp
  rcases List.mem_map.mp hp with ⟨q, hq, rfl⟩
  simp

/-- The core correctness of `get_counts_by_class` on tolerated rows: it
succeeds, and the total at every class is the sum of the rows'
contributions at that class. -/
theorem get_counts_correct (s : Store)
    (h : ∀ r ∈ fetch_all s, rowTolerated r = true) :
    ∃ t, get_counts_by_class s = .ok t ∧
      ∀ k, lookupD t k =
        ((fetch_all s).map (fun r => rowSumAt r.counts_json k)).sum := by
  rcases aggRows_tolerated (fetch_all s) h [] with ⟨t, ht⟩
  refine ⟨t, ht, fun k => ?_⟩
  rw [aggRows_ok (fetch_all s) [] t ht k]
  simp [lookupD]

/-- `insert_request` preserves the store's representation invariant. -/
theorem insert_request_WF (s : Store) (hs : s.WF)
    (fn op mn ca : String) (m : List (String × Int)) (tc ms : Int) :
    (insert_request s fn op m tc mn ca ms).2.WF := by
  rcases hs with ⟨hpair, hlt⟩
  constructor
  · refine List.pairwise_cons.mpr ⟨fun r hr => ?_, hpair⟩
    exact hlt r hr
  · intro r hr
    rcases List.mem_cons.mp hr with h | h
    · rw [h]; exact Nat.lt_succ_self _
    · exact Nat.lt_succ_of_lt (hlt r h)

/-- The empty store satisfies the representation invariant. -/
theorem empty_WF : Store.empty.WF := by
  constructor <;> simp [Store.empty]

/-! ## Concrete instances used by witnesses and counterexamples -/

/-- A two-request store as produced by two successful pipeline runs. -/
def demoStore : Store :=
  ⟨3, [⟨2, "b.jpg", "b_result.jpg", encodeCounts [("banana", 1)], 1,
        MODEL_NAME, "2024-01-02 00:00:00", 8⟩,
       ⟨1, "a.jpg", "a_result.jpg", encodeCounts [("apple", 2)], 2,
        MODEL_NAME, "2024-01-01 00:00:00", 7⟩]⟩

/-- A store holding one well-formed record and one whose `counts_json` text
decodes as a JSON array (valid JSON, but no `.items()`). -/
def corruptStore : Store :=
  ⟨3, [⟨2, "good.jpg", "good_result.jpg", encodeCounts [("apple", 1)], 1,
        MODEL_NAME, "2024-01-02 00:00:00", 5⟩,
       ⟨1, "bad.jpg", "bad_result.jpg", .nonObject, 0,
        MODEL_NAME, "2024-01-01 00:00:00", 5⟩]⟩

/-- A store holding one well-formed record and one whose `counts_json` text
fails to decode as JSON at all. -/
def mixedStore : Store :=
  ⟨3, [⟨2, "good.jpg", "good_result.jpg", encodeCounts [("apple", 1), ("orange", 3)], 4,
        MODEL_NAME, "2024-01-02 00:00:00", 5⟩,
       ⟨1, "bad.jpg", "bad_result.jpg", .malformed, 0,
        MODEL_NAME, "2024-01-01 00:00:00", 5⟩]⟩

/-- A detector run: two apples, one banana, one detection outside the
allow-list ("person"). -/
def demoRaw : RawDetection :=
  { names := [(47, "apple"), (46, "banana"), (49, "orange"), (0, "person")]
    clsIds := [47, 47, 46, 0]
    processing_ms := 12 }

/-- A valid upload whose detection succeeds. -/
def demoUpload : Upload :=
  { filename := some "photo.JPG"
    size := 1000
    decodes := true
    det := some demoRaw
    created_at := "2024-01-01 00:00:00"
    file_id := "abc" }

/-- A valid upload on which the detector raises. -/
def uDetFail : Upload :=
  { filename := some "photo.jpg"
    size := 1000
    decodes := true
    det := none
    created_at := "2024-01-01 00:00:00"
    file_id := "feed" }

/-- An upload with a `.gif` extension. -/
def uGif : Upload :=
  { filename := some "anim.gif"
    size := 10
    decodes := true
    det := some demoRaw
    created_at := "2024-01-01 00:00:00"
    file_id := "cafe" }

/-! ## Claims -/

/-- C1: for every store state, `summary()` returns `total_requests` equal to
the number of persisted records, `total_detections` (column alias
`total_fruits`) equal to the sum of `total_count` over all records (zero when
there are none), and `average_per_request` (alias `avg_per_request`) equal to
`total_detections / total_requests` when `total_requests > 0` and zero when
there are no records — always a defined value, never an error. -/
theorem summary_spec (s : Store) :
    (get_summary s).total_requests = (fetch_all s).length ∧
    (get_summary s).total_fruits =
      ((fetch_all s).map (fun r => r.total_count)).sum ∧
    (0 < (fetch_all s).length →
      (get_summary s).avg_per_request =
        ((get_summary s).total_fruits : ℚ) /
          ((get_summary s).total_requests : ℚ)) ∧
    ((fetch_all s).length = 0 →
      (get_summary s).total_fruits = 0 ∧
      (get_summary s).avg_per_request = 0) := by
  rcases hrows : s.rows with _ | ⟨r, rest⟩
  · simp [get_summary, fetch_all, coalesce, sqlSUM, sqlAVG, hrows]
  · refine ⟨by simp [get_summary, fetch_all, hrows], ?_, ?_, ?_⟩
    · simp [get_summary, fetch_all, coalesce, sqlSUM, hrows]
    · intro _
      simp [get_summary, fetch_all, coalesce, sqlSUM, sqlAVG, hrows]
    · intro h
      rw [fetch_all, hrows] at h
      simp at h

/-- Witness for C1 at a two-record store and at the empty store. -/
theorem summary_spec_witness :
    (0 < (fetch_all demoStore).length ∧
      (get_summary demoStore).avg_per_request =
        ((get_summary demoStore).total_fruits : ℚ) /
          ((get_summary demoStore).total_requests : ℚ)) ∧
    ((fetch_all Store.empty).length = 0 ∧
      (get_summary Store.empty).total_fruits = 0 ∧
      (get_summary Store.empty).avg_per_request = 0) :=
  ⟨⟨by decide, (summary_spec demoStore).2.2.1 (by decide)⟩,
   ⟨by decide, (summary_spec Store.empty).2.2.2 (by decide)⟩⟩

/-- C5: for every well-formed store state and every limit `n ≥ 0`,
`recent(n)` returns at most `n` records, ordered strictly descending by id,
returns all records when fewer than `n` exist, and is a prefix of `all()`. -/
theorem recent_spec (s : Store) (hWF : s.WF) (n : Nat) :
    (fetch_recent (Int.ofNat n) s).length ≤ n ∧
    (fetch_recent (Int.ofNat n) s).Pairwise (fun a b => b.id < a.id) ∧
    ((fetch_all s).length ≤ n → fetch_recent (Int.ofNat n) s = fetch_all s) ∧
    ∃ rest, fetch_recent (Int.ofNat n) s ++ rest = fetch_all s := by
  have hneg : ¬ (Int.ofNat n < 0) := by
    simp [Int.ofNat_nonneg, not_lt]
  rw [fetch_recent, if_neg hneg]
  have htn : (Int.ofNat n).toNat = n := rfl
  rw [htn]
  exact ⟨List.length_take_le n s.rows,
    hWF.1.sublist (List.take_sublist n s.rows),
    fun h => List.take_of_length_le h,
    ⟨s.rows.drop n, List.take_append_drop n s.rows⟩⟩

/-- Witness for C5: the two-record store, limit 1. -/
theorem recent_spec_witness :
    (fetch_recent (Int.ofNat 1) demoStore).length ≤ 1 ∧
    (fetch_recent (Int.ofNat 1) demoStore).Pairwise (fun a b => b.id < a.id) ∧
    ((fetch_all demoStore).length ≤ 1 →
      fetch_recent (Int.ofNat 1) demoStore = fetch_all demoStore) ∧
    ∃ rest, fetch_recent (Int.ofNat 1) demoStore ++ rest = fetch_all demoStore :=
  recent_spec demoStore (by decide) 1

/-- C8: with no intervening inserts, running `summary()` twice returns
identical results, as does running `totals_by_class()` twice; neither read
mutates the store. -/
theorem reads_idempotent (s : Store) :
    (summaryOp ((summaryOp s).2)).1 = (summaryOp s).1 ∧ (summaryOp s).2 = s ∧
    (totalsOp ((totalsOp s).2)).1 = (totalsOp s).1 ∧ (totalsOp s).2 = s :=
  ⟨rfl, rfl, rfl, rfl⟩

/-- C10: `fetch_recent` with limit 0 returns the empty sequence, any negative
limit returns every record (treated as unlimited), and the bound "at most
`limit` records" holds under the precondition `limit ≥ 0`. -/
theorem limit_edge_cases (s : Store) :
    fetch_recent 0 s = [] ∧
    (∀ limit : Int, limit < 0 → fetch_recent limit s = fetch_all s) ∧
    (∀ limit : Int, 0 ≤ limit →
      ((fetch_recent limit s).length : Int) ≤ limit) := by
  refine ⟨by rw [fetch_recent]; simp, fun l hl => by rw [fetch_recent, if_pos hl]; rfl,
    fun l hl => ?_⟩
  rw [fetch_recent, if_neg (not_lt.mpr hl)]
  calc ((s.rows.take l.toNat).length : Int) ≤ (l.toNat : Int) := by
        exact_mod_cast List.length_take_le l.toNat s.rows
    _ = l := Int.toNat_of_nonneg hl

/-- Witness for C10: limit -1 returns everything; limit 0 returns nothing. -/
theorem limit_edge_cases_witness :
    fetch_recent (-1) demoStore = fetch_all demoStore ∧
    fetch_recent 0 demoStore = [] :=
  ⟨(limit_edge_cases demoStore).2.1 (-1) (by decide),
   (limit_edge_cases demoStore).1⟩

/-- C4 counterexample: a store holding one well-formed record and one record
whose stored count data is corrupt yet valid JSON (a JSON array). The claim
says the aggregation never aborts and continues over the remaining records;
`get_counts_by_class` aborts with an error instead, the good record's
contribution included nowhere. -/
theorem totals_by_class_counterexample :
    get_counts_by_class corruptStore = .error () := rfl

/-- C4 (amended): a record whose stored count text fails to decode as JSON
contributes nothing and aggregation continues over the remaining records,
producing for each class the sum of that class's count across the rows; but
this tolerance only covers `JSONDecodeError` — the hypothesis restricts every
row to undecodable text or a JSON object of int-coercible values. -/
theorem totals_by_class_amended (s : Store)
    (h : ∀ r ∈ fetch_all s, rowTolerated r = true) :
    (∃ t, get_counts_by_class s = .ok t ∧
      ∀ k, lookupD t k =
        ((fetch_all s).map (fun r => rowSumAt r.counts_json k)).sum) ∧
    (∀ r ∈ fetch_all s, r.counts_json = .malformed →
      ∀ k, rowSumAt r.counts_json k = 0) := by
  refine ⟨get_counts_correct s h, fun r _ hm k => ?_⟩
  rw [hm]
  rfl

/-- Witness for C4 (amended): a store with one JSON-undecodable record and one
good record aggregates to the good record's counts. -/
theorem totals_by_class_amended_witness :
    (∃ t, get_counts_by_class mixedStore = .ok t ∧
      ∀ k, lookupD t k =
        ((fetch_all mixedStore).map (fun r => rowSumAt r.counts_json k)).sum) ∧
    (∀ r ∈ fetch_all mixedStore, r.counts_json = .malformed →
      ∀ k, rowSumAt r.counts_json k = 0) :=
  totals_by_class_amended mixedStore (by decide)

/-- C7: when the resolved allow-list class-id set is non-empty the detector is
invoked restricted to exactly those ids; when it is empty the detector is
invoked unrestricted and the raw detections are filtered afterwards against
the allow-list by lower-cased class name — any raw detection mapping to an
allow-listed name still yields a positive total, never a silent zero. -/
theorem adapter_fallback (names : List (Nat × String)) :
    (_get_fruit_class_ids names ≠ [] →
      detectorCallOf names = .restricted (_get_fruit_class_ids names)) ∧
    (_get_fruit_class_ids names = [] →
      detectorCallOf names = .unrestricted) ∧
    (∀ ids, ∀ k ∈ keysOf (countDetections names ids []), k ∈ FRUIT_CLASSES) ∧
    (∀ ids cid, cid ∈ ids → keyOf names cid ∈ FRUIT_CLASSES →
      0 < sumVals (countDetections names ids [])) := by
  refine ⟨?_, ?_, ?_, ?_⟩
  · intro h
    rw [detectorCallOf]
    simp only [List.isEmpty_iff, h, if_false]
  · intro h
    rw [detectorCallOf]
    simp [h]
  · intro ids k hk
    rcases keysOf_countDetections names ids [] k hk with h | h
    · simp [keysOf] at h
    · exact h
  · intro ids cid hcid hkey
    rw [sumVals_countDetections names ids []]
    have hmem : cid ∈ ids.filter (fun c => decide (keyOf names c ∈ FRUIT_CLASSES)) :=
      List.mem_filter.mpr ⟨hcid, by simpa using hkey⟩
    have hpos : 0 < (ids.filter (fun c => decide (keyOf names c ∈ FRUIT_CLASSES))).length :=
      List.length_pos.mpr (fun he => by rw [he] at hmem; cases hmem)
    have : (0 : Int) <
        ((ids.filter (fun c => decide (keyOf names c ∈ FRUIT_CLASSES))).length : Int) := by
      exact_mod_cast hpos
    simpa [sumVals] using this

/-- Witness for C7: a detector with the three fruit classes resolves to a
non-empty id set and a restricted call; a detector with no fruit classes
falls back to an unrestricted call, whose raw detections still count. -/
theorem adapter_fallback_witness :
    (detectorCallOf demoRaw.names = .restricted (_get_fruit_class_ids demoRaw.names) ∧
      _get_fruit_class_ids demoRaw.names = [47, 46, 49]) ∧
    (detectorCallOf [(0, "person")] = .unrestricted) ∧
    (0 < sumVals (countDetections [(0, "person"), (1, "Apple")] [1, 0] [])) :=
  ⟨⟨(adapter_fallback demoRaw.names).1 (by decide), by decide⟩,
   (adapter_fallback [(0, "person")]).2.1 (by decide),
   (adapter_fallback [(0, "person"), (1, "Apple")]).2.2.2 [1, 0] 1
     (by decide) (by decide)⟩

/-- C9: insert/read round-trip. The serialized counts decode back to exactly
the inserted mapping; after `insert_request` the new record is at the head of
`fetch_all` carrying every supplied field unchanged, its id the returned
value; the row contribution of the encoded mapping at each class equals the
keywise sum of the inserted mapping; and on a store whose rows all decode,
`get_counts_by_class` succeeds and equals the keywise sum over its rows. -/
theorem insert_roundtrip (s : Store) (fn op mn ca : String)
    (m : List (String × Int)) (tc ms : Int) :
    decodeCounts (encodeCounts m) = some m ∧
    fetch_all (insert_request s fn op m tc mn ca ms).2 =
      ⟨s.nextId, fn, op, encodeCounts m, tc, mn, ca, ms⟩ :: fetch_all s ∧
    (insert_request s fn op m tc mn ca ms).1 = s.nextId ∧
    (∀ k, rowSumAt (encodeCounts m) k = mapSumAt m k) ∧
    ((∀ r ∈ fetch_all (insert_request s fn op m tc mn ca ms).2,
        (decodeCounts r.counts_json).isSome) →
      ∃ t, get_counts_by_class (insert_request s fn op m tc mn ca ms).2 = .ok t ∧
        ∀ k, lookupD t k =
          ((fetch_all (insert_request s fn op m tc mn ca ms).2).map
            (fun r => rowSumAt r.counts_json k)).sum) := by
  refine ⟨decode_encode m, rfl, rfl, fun k => entrySum_encode m k, fun h => ?_⟩
  apply get_counts_correct
  intro r hr
  rcases Option.isSome_iff_exists.mp (h r hr) with ⟨mr, hmr⟩
  exact rowTolerated_of_decode r mr hmr

/-- Witness for C9: inserting `{apple: 2, banana: 1}` into the two-record
store gives a fully decodable store whose totals aggregate keywise. -/
theorem insert_roundtrip_witness :
    ∃ t, get_counts_by_class
        (insert_request demoStore "f.jpg" "f_result.jpg"
          [("apple", 2), ("banana", 1)] 3 MODEL_NAME "2024-01-03 00:00:00" 7).2 =
        .ok t ∧
      ∀ k, lookupD t k =
        ((fetch_all (insert_request demoStore "f.jpg" "f_result.jpg"
            [("apple", 2), ("banana", 1)] 3 MODEL_NAME "2024-01-03 00:00:00" 7).2).map
          (fun r => rowSumAt r.counts_json k)).sum :=
  (insert_roundtrip demoStore "f.jpg" "f_result.jpg" MODEL_NAME
    "2024-01-03 00:00:00" [("apple", 2), ("banana", 1)] 3 7).2.2.2.2
    (by decide)

/-- C2: for every image processed successfully by the pipeline, the persisted
record's counts decode to the adapter's normalized counts, its `total_count`
equals the sum of those counts' values, every key is in the fixed allow-list
{apple, banana, orange}, the count at each allow-listed class is exactly the
number of raw detections resolving to it, and raw detections outside the
allow-list are discarded (contribute zero, appear under no key). -/
theorem pipeline_record_invariant (u : Upload) (s : Store) (raw : RawDetection)
    (hdet : u.det = some raw) (rid : Nat)
    (hout : (process_image u s).outcome = .completed rid) :
    ∃ r : Rec, fetch_all (process_image u s).store = r :: fetch_all s ∧
      decodeCounts r.counts_json = some (countDetections raw.names raw.clsIds []) ∧
      r.total_count = sumVals (countDetections raw.names raw.clsIds []) ∧
      (∀ k ∈ keysOf (countDetections raw.names raw.clsIds []), k ∈ FRUIT_CLASSES) ∧
      (∀ k, k ∈ FRUIT_CLASSES →
        lookupD (countDetections raw.names raw.clsIds []) k =
          ((raw.clsIds.filter (fun cid => keyOf raw.names cid = k)).length : Int)) ∧
      (∀ k, k ∉ FRUIT_CLASSES →
        lookupD (countDetections raw.names raw.clsIds []) k = 0) := by
  rcases hfn : u.filename with _ | fn
  · simp [process_image, hfn] at hout
  · simp only [process_image, hfn, hdet] at hout ⊢
    split_ifs at hout ⊢ with h1 h2 h3
    refine ⟨_, rfl, decode_encode _, rfl, ?_, ?_, ?_⟩
    · intro k hk
      rcases keysOf_countDetections raw.names raw.clsIds [] k hk with h | h
      · simp [keysOf] at h
      · exact h
    · intro k hkF
      rw [lookupD_countDetections raw.names raw.clsIds k [], if_pos hkF]
      simp [lookupD]
    · intro k hkF
      rw [lookupD_countDetections raw.names raw.clsIds k [], if_neg hkF]
      simp [lookupD]

/-- Witness for C2: a successful run over two apples, one banana and one
person detection persists `{apple: 2, banana: 1}` with total 3. -/
theorem pipeline_record_invariant_witness :
    ∃ r : Rec, fetch_all (process_image demoUpload Store.empty).store =
        r :: fetch_all Store.empty ∧
      decodeCounts r.counts_json =
        some (countDetections demoRaw.names demoRaw.clsIds []) ∧
      r.total_count = sumVals (countDetections demoRaw.names demoRaw.clsIds []) ∧
      (∀ k ∈ keysOf (countDetections demoRaw.names demoRaw.clsIds []),
        k ∈ FRUIT_CLASSES) ∧
      (∀ k, k ∈ FRUIT_CLASSES →
        lookupD (countDetections demoRaw.names demoRaw.clsIds []) k =
          ((demoRaw.clsIds.filter
            (fun cid => keyOf demoRaw.names cid = k)).length : Int)) ∧
      (∀ k, k ∉ FRUIT_CLASSES →
        lookupD (countDetections demoRaw.names demoRaw.clsIds []) k = 0) :=
  pipeline_record_invariant demoUpload Store.empty demoRaw rfl 1 (by decide)

/-- C3 counterexample: a valid upload on which the detector raises. The
request exits as a detection failure with no record persisted, but the staged
upload file is still on disk — the claim's "the temporary upload file staged
for that request is removed ... including exceptions raised during detector
inference" is false: there is no cleanup handler around `run_detection`. -/
theorem staged_cleanup_counterexample :
    (process_image uDetFail Store.empty).outcome = .detectionRaised ∧
    (process_image uDetFail Store.empty).store = Store.empty ∧
    (process_image uDetFail Store.empty).stagedRemains = true := by decide

/-- C3 (amended): every validation-error exit (no file, bad extension,
oversized, undecodable image) persists no record and leaves no staged upload
file; a detection-error exit persists no record but leaves the staged upload
file on disk. -/
theorem staged_cleanup_amended (u : Upload) (s : Store) :
    (((process_image u s).outcome = .noFileSelected ∨
      (process_image u s).outcome = .badExtension ∨
      (process_image u s).outcome = .tooLarge ∨
      (process_image u s).outcome = .notAnImage) →
      (process_image u s).store = s ∧
      (process_image u s).stagedRemains = false) ∧
    ((process_image u s).outcome = .detectionRaised →
      (process_image u s).store = s ∧
      (process_image u s).stagedRemains = true) := by
  rcases hfn : u.filename with _ | fn
  · simp [process_image, hfn]
  · rcases hdet : u.det with _ | raw
    all_goals (
      simp only [process_image, hfn, hdet]
      split_ifs with h1 h2 h3 <;> simp)

/-- Witness for C3 (amended): an undecodable upload is rejected with the
staged file removed; a raising detector leaves the staged file behind. -/
theorem staged_cleanup_amended_witness :
    ((process_image ⟨some "x.png", 5, false, none, "t", "aa"⟩ Store.empty).outcome =
        .noFileSelected ∨
      (process_image ⟨some "x.png", 5, false, none, "t", "aa"⟩ Store.empty).outcome =
        .badExtension ∨
      (process_image ⟨some "x.png", 5, false, none, "t", "aa"⟩ Store.empty).outcome =
        .tooLarge ∨
      (process_image ⟨some "x.png", 5, false, none, "t", "aa"⟩ Store.empty).outcome =
        .notAnImage) ∧
    ((process_image ⟨some "x.png", 5, false, none, "t", "aa"⟩ Store.empty).store =
        Store.empty ∧
      (process_image ⟨some "x.png", 5, false, none, "t", "aa"⟩
        Store.empty).stagedRemains = false) :=
  ⟨by decide,
   (staged_cleanup_amended ⟨some "x.png", 5, false, none, "t", "aa"⟩ Store.empty).1
     (by decide)⟩

/-- C6: an upload whose declared extension, lower-cased, is outside
{.jpg, .jpeg, .png} is rejected as a bad extension with the store unchanged;
an upload with an allowed extension whose byte length exceeds 20 MB is
rejected as too large with the store unchanged — zero new records either
way. -/
theorem validation_rejection (u : Upload) (s : Store) (fn : String)
    (hfn : u.filename = some fn) :
    (asciiLower (pySuffix fn) ∉ ALLOWED_EXTENSIONS →
      process_image u s = ⟨.badExtension, s, false⟩) ∧
    (asciiLower (pySuffix fn) ∈ ALLOWED_EXTENSIONS →
      u.size > MAX_FILE_MB * 1024 * 1024 →
      process_image u s = ⟨.tooLarge, s, false⟩) := by
  constructor
  · intro h
    simp [process_image, hfn, h]
  · intro h hsz
    simp [process_image, hfn, h, hsz]

/-- Witness for C6: a `.gif` upload is rejected with zero new records; a
21 MB `.jpg` upload is rejected as too large. -/
theorem validation_rejection_witness :
    process_image uGif Store.empty = ⟨.badExtension, Store.empty, false⟩ ∧
    process_image ⟨some "big.jpg", 21 * 1024 * 1024, true, none, "t", "bb"⟩
      Store.empty = ⟨.tooLarge, Store.empty, false⟩ :=
  ⟨(validation_rejection uGif Store.empty "anim.gif" rfl).1 (by decide),
   (validation_rejection ⟨some "big.jpg", 21 * 1024 * 1024, true, none, "t", "bb"⟩
     Store.empty "big.jpg" rfl).2 (by decide) (by decide)⟩
